import Mathlib

/-
A verification development for the `framed` message-framing library.

The library has two parts:

* the sectioned framing layer (`Framed`, `Frame`, `FrameSection`): each
  frame carries a header section and a body section, both length-prefixed
  by a 16-bit little-endian integer that the Go code declares as `int16`;
* a single-section framing variant (`Reader`, `Writer`) whose single
  length prefix is a `uint16` bounded by `MaxFrameLength`.

The embedding below is a direct translation of the Go code.  Mutable
state is passed explicitly:

* the underlying connection is a `Stream`: the list of bytes it will
  still deliver, followed by a terminal error (`GoErr.eof` for a clean
  end of stream); a raw read delivers up to the requested number of
  bytes and reports the terminal error once the bytes are exhausted;
* every operation returns its Go results together with the updated
  states; a Go `error` is `Option GoErr` (`none` is Go `nil`);
* a run-time panic (the Go code can slice with a negative bound) is
  modelled by an `Option` result of `none`;
* the underlying writer is modelled as an always-succeeding sink, so a
  write operation returns the error produced by the code's own checks
  together with the exact bytes handed to the sink;
* Go `int16` values are `Int`s in [-32768, 32767]; the conversions
  reproduce two's-complement wrap-around.

In the source file of the single-section variant the identifiers
`innern`, `innererr` and `innerframe` denote the named result values
`n`, `err` and `frame` of the enclosing functions.
-/

namespace framed

/-- The error values the code can produce: `io.EOF`, `io.ErrUnexpectedEOF`,
`AlreadyReadError`, the "buffer too small" error, the "frame too long"
error, and a representative non-EOF transport error. -/
inductive GoErr where
  | eof
  | unexpectedEOF
  | alreadyRead
  | bufferTooSmall
  | tooLong
  | connReset
deriving DecidableEq

/-- The underlying connection: the bytes it will still deliver, and the
error every read reports once the bytes run out (`GoErr.eof` for a clean
end of stream). -/
structure Stream where
  bytes : List Nat
  termErr : GoErr
deriving DecidableEq

/-- One raw read from the underlying connection: delivers up to `want`
bytes; a read of a positive amount from an exhausted stream reports the
terminal error. Returns the delivered bytes, the remaining stream, and
the error. -/
def Stream.read (st : Stream) (want : Nat) : List Nat × Stream × Option GoErr :=
  if want = 0 then ([], st, none)
  else if st.bytes = [] then ([], st, some st.termErr)
  else (st.bytes.take want, ⟨st.bytes.drop want, st.termErr⟩, none)

/-- Go `int16(n)` for a natural number `n`: two's-complement wrap-around
into [-32768, 32767]. -/
def toInt16 (n : Nat) : Int :=
  if n % 65536 < 32768 then ((n % 65536 : Nat) : Int) else ((n % 65536 : Nat) : Int) - 65536

/-- Go `int16` arithmetic wrap-around applied to an integer (used for the
`int16` sum `headerLength + bodyLength` in `Frame.CopyTo`). -/
def int16ofInt (v : Int) : Int :=
  if v % 65536 < 32768 then v % 65536 else v % 65536 - 65536

/-- `binary.Read(stream, littleEndian, &int16Var)`: reads two bytes
little-endian via `io.ReadFull` and interprets them as an `int16`.
A completely empty stream reports the terminal error; a stream that ends
after one byte turns a clean EOF into `io.ErrUnexpectedEOF`. -/
def Stream.readInt16 (st : Stream) : Except GoErr Int × Stream :=
  match st.bytes with
  | [] => (Except.error st.termErr, st)
  | [_] => (Except.error (if st.termErr = GoErr.eof then GoErr.unexpectedEOF else st.termErr),
            ⟨[], st.termErr⟩)
  | b0 :: b1 :: rest =>
      (Except.ok (toInt16 (b0 % 256 + 256 * (b1 % 256))), ⟨rest, st.termErr⟩)

/-- `FrameSection`: the two per-section mutable fields of the Go struct
(the back references are made explicit by passing the states around). -/
structure FrameSection where
  bytesRemaining : Int
  startedReading : Bool
deriving DecidableEq

/-- `Frame`: header section, body section, and the two lengths captured
from the length-prefix pair. -/
structure Frame where
  Header : FrameSection
  Body : FrameSection
  headerLength : Int
  bodyLength : Int
deriving DecidableEq

/-- `Framed`: the underlying stream and the `hasReadInitial` flag. -/
structure Framed where
  stream : Stream
  hasReadInitial : Bool
deriving DecidableEq

/-- The tail of `FrameSection.Read` after the clamp: delegate to the
underlying stream, decrement `bytesRemaining` by the number of bytes
actually delivered (only when positive), and replace the error by
`io.EOF` exactly when `bytesRemaining` reaches 0. -/
def readStep (sec : FrameSection) (fd : Framed) (want : Nat) :
    List Nat × Option GoErr × FrameSection × Framed :=
  match fd.stream.read want with
  | (data, st2, rerr) =>
    let sec2 : FrameSection :=
      if 0 < data.length then ⟨sec.bytesRemaining - (data.length : Int), sec.startedReading⟩
      else sec
    let e : Option GoErr := if sec2.bytesRemaining = 0 then some GoErr.eof else rerr
    (data, e, sec2, ⟨st2, fd.hasReadInitial⟩)

/-- `FrameSection.Read` for a section without an `init` action (the
Header section; the Body section's `init` wiring is in `Frame.ReadBody`).
If `bytesRemaining == 0` it returns 0 bytes and a nil error.  Otherwise
it sets `startedReading`, clamps the buffer `p` to `bytesRemaining`
(`p = p[0:bytesRemaining]`, which panics when `bytesRemaining` is
negative — modelled by `none`), and delegates to the stream. -/
def FrameSection.Read (sec : FrameSection) (fd : Framed) (plen : Nat) :
    Option (List Nat × Option GoErr × FrameSection × Framed) :=
  if sec.bytesRemaining = 0 then some ([], none, sec, fd)
  else
    let sec1 : FrameSection := ⟨sec.bytesRemaining, true⟩
    if sec1.bytesRemaining < (plen : Int) then
      if sec1.bytesRemaining < 0 then none
      else some (readStep sec1 fd sec1.bytesRemaining.toNat)
    else some (readStep sec1 fd plen)

/-- The loop of `io.Copy(ioutil.Discard, section)` over a section without
an `init` action: repeated `Read`s with io.Copy's 32 KiB buffer until a
non-nil error; `io.EOF` counts as success.  `fuel` bounds the number of
iterations (the callers supply enough fuel; exhausted fuel is `none`). -/
def copyLoopS (fuel : Nat) (sec : FrameSection) (fd : Framed) :
    Option (Option GoErr × FrameSection × Framed) :=
  match fuel with
  | 0 => none
  | f + 1 =>
    match sec.Read fd 32768 with
    | none => none
    | some (_, none, sec2, fd2) => copyLoopS f sec2 fd2
    | some (_, some GoErr.eof, sec2, fd2) => some (none, sec2, fd2)
    | some (_, some e, sec2, fd2) => some (some e, sec2, fd2)

/-- `FrameSection.drain` for a section without an `init` action: a no-op
unless `bytesRemaining > 0`, otherwise `io.Copy` to `ioutil.Discard`. -/
def FrameSection.drain (sec : FrameSection) (fd : Framed) :
    Option (Option GoErr × FrameSection × Framed) :=
  if 0 < sec.bytesRemaining then copyLoopS (sec.bytesRemaining.toNat + 1) sec fd
  else some (none, sec, fd)

/-- Reading from a frame's Header section (its `init` is nil). -/
def Frame.ReadHeader (fr : Frame) (fd : Framed) (plen : Nat) :
    Option (List Nat × Option GoErr × Frame × Framed) :=
  match fr.Header.Read fd plen with
  | none => none
  | some (data, e, sec2, fd2) =>
      some (data, e, ⟨sec2, fr.Body, fr.headerLength, fr.bodyLength⟩, fd2)

/-- Draining a frame's Header section (`frame.Header.drain()`). -/
def Frame.drainHeader (fr : Frame) (fd : Framed) : Option (Option GoErr × Frame × Framed) :=
  match fr.Header.drain fd with
  | none => none
  | some (e, sec2, fd2) => some (e, ⟨sec2, fr.Body, fr.headerLength, fr.bodyLength⟩, fd2)

/-- Reading from a frame's Body section: its `init` is `Header.drain`,
run on every read before the section's own bytes are delivered; an
`init` failure is returned without setting `startedReading`. -/
def Frame.ReadBody (fr : Frame) (fd : Framed) (plen : Nat) :
    Option (List Nat × Option GoErr × Frame × Framed) :=
  if fr.Body.bytesRemaining = 0 then some ([], none, fr, fd)
  else
    match fr.drainHeader fd with
    | none => none
    | some (some e, fr2, fd2) => some ([], some e, fr2, fd2)
    | some (none, fr2, fd2) =>
      match fr2.Body.Read fd2 plen with
      | none => none
      | some (data, e, sec2, fd3) =>
          some (data, e, ⟨fr2.Header, sec2, fr2.headerLength, fr2.bodyLength⟩, fd3)

/-- The loop of `io.Copy(ioutil.Discard, section)` over the Body section
(whose reads run the `init` action). -/
def copyLoopB (fuel : Nat) (fr : Frame) (fd : Framed) :
    Option (Option GoErr × Frame × Framed) :=
  match fuel with
  | 0 => none
  | f + 1 =>
    match fr.ReadBody fd 32768 with
    | none => none
    | some (_, none, fr2, fd2) => copyLoopB f fr2 fd2
    | some (_, some GoErr.eof, fr2, fd2) => some (none, fr2, fd2)
    | some (_, some e, fr2, fd2) => some (some e, fr2, fd2)

/-- Draining a frame's Body section (`frame.Body.drain()`). -/
def Frame.drainBody (fr : Frame) (fd : Framed) : Option (Option GoErr × Frame × Framed) :=
  if 0 < fr.Body.bytesRemaining then copyLoopB (fr.Body.bytesRemaining.toNat + 1) fr fd
  else some (none, fr, fd)

/-- `Framed.nextFrame`: construct a frame and run `readLengths` on it.
On a length-read failure the Go code still returns the (incompletely
initialised) frame pointer together with the error; the sections'
`bytesRemaining` are only assigned after both prefixes were read. -/
def Framed.nextFrame (fd : Framed) : Option GoErr × Frame × Framed :=
  match fd.stream.readInt16 with
  | (Except.error e, st1) => (some e, ⟨⟨0, false⟩, ⟨0, false⟩, 0, 0⟩, ⟨st1, fd.hasReadInitial⟩)
  | (Except.ok hl, st1) =>
    match st1.readInt16 with
    | (Except.error e, st2) =>
        (some e, ⟨⟨0, false⟩, ⟨0, false⟩, hl, 0⟩, ⟨st2, fd.hasReadInitial⟩)
    | (Except.ok bl, st2) =>
        (none, ⟨⟨hl, false⟩, ⟨bl, false⟩, hl, bl⟩, ⟨st2, fd.hasReadInitial⟩)

/-- `Frame.NextFrame`: drain Header, then drain Body, then read the next
length-prefix pair; an error from either drain is returned with no next
frame. -/
def Frame.NextFrame (fr : Frame) (fd : Framed) :
    Option (Option GoErr × Option Frame × Framed) :=
  match fr.drainHeader fd with
  | none => none
  | some (some e, _, fd1) => some (some e, none, fd1)
  | some (none, fr1, fd1) =>
    match fr1.drainBody fd1 with
    | none => none
    | some (some e, _, fd2) => some (some e, none, fd2)
    | some (none, _, fd2) =>
      match Framed.nextFrame fd2 with
      | (e, nf, fd3) => some (e, some nf, fd3)

/-- `Framed.ReadInitial`: fails with `AlreadyReadError` when
`hasReadInitial` is set; otherwise runs `nextFrame` and sets the flag
afterwards, whether or not `nextFrame` failed. -/
def Framed.ReadInitial (fd : Framed) : Option GoErr × Option Frame × Framed :=
  if fd.hasReadInitial then (some GoErr.alreadyRead, none, fd)
  else
    match Framed.nextFrame fd with
    | (e, fr, fd1) => (e, some fr, ⟨fd1.stream, true⟩)

/-- `binary.Write(out, littleEndian, v)` for an `int16` value: the two
bytes of its two's-complement pattern, least significant first. -/
def encodeInt16 (v : Int) : List Nat :=
  [(v % 65536).toNat % 256, (v % 65536).toNat / 256]

/-- `writeHeaderTo`: the header-length prefix followed by the body-length
prefix. -/
def writeHeaderTo (headerLength bodyLength : Int) : List Nat :=
  encodeInt16 headerLength ++ encodeInt16 bodyLength

/-- `Framed.WriteFrame`: writes the length-prefix pair
`(int16(len(header)), int16(len(body)))`, then the header bytes, then the
body bytes.  The code performs no length validation; with the underlying
writer modelled as an always-succeeding sink the returned error is the
error of the code's own logic (always `nil`) and the list is exactly the
bytes handed to the sink. -/
def Framed.WriteFrame (header body : List Nat) : Option GoErr × List Nat :=
  (none, writeHeaderTo (toInt16 header.length) (toInt16 body.length) ++ header ++ body)

/-- `Frame.CopyTo`: fails with `AlreadyReadError` when either section has
started reading; otherwise writes the captured length-prefix pair and
runs `io.CopyN(out, framed, int64(headerLength+bodyLength))` — the count
is an `int16` sum.  `io.CopyN` with a count `n ≤ 0` copies nothing and
returns a nil error (0 copied bytes are not fewer than a non-positive
`n`); with a positive count it copies that many raw bytes, reporting the
stream's terminal error when the stream runs out first. -/
def Frame.CopyTo (fr : Frame) (fd : Framed) : Option GoErr × List Nat × Framed :=
  if fr.Header.startedReading || fr.Body.startedReading then
    (some GoErr.alreadyRead, [], fd)
  else
    let hdrBytes := writeHeaderTo fr.headerLength fr.bodyLength
    let cnt : Int := int16ofInt (fr.headerLength + fr.bodyLength)
    if cnt ≤ 0 then (none, hdrBytes, fd)
    else if cnt.toNat ≤ fd.stream.bytes.length then
      (none, hdrBytes ++ fd.stream.bytes.take cnt.toNat,
       ⟨⟨fd.stream.bytes.drop cnt.toNat, fd.stream.termErr⟩, fd.hasReadInitial⟩)
    else
      (some fd.stream.termErr, hdrBytes ++ fd.stream.bytes,
       ⟨⟨[], fd.stream.termErr⟩, fd.hasReadInitial⟩)

/-- A consumer that reads the Header section to exhaustion: repeated
`Read`s with a buffer of length `plen`, collecting the delivered bytes,
stopping at the first non-nil error (`io.EOF` is the success signal) or
when a read delivers no bytes and no error. -/
def readHeaderAll (fuel plen : Nat) (fr : Frame) (fd : Framed) (acc : List Nat) :
    Option (List Nat × Option GoErr × Frame × Framed) :=
  match fuel with
  | 0 => none
  | f + 1 =>
    match fr.ReadHeader fd plen with
    | none => none
    | some (data, some GoErr.eof, fr2, fd2) => some (acc ++ data, none, fr2, fd2)
    | some (data, some e, fr2, fd2) => some (acc ++ data, some e, fr2, fd2)
    | some (data, none, fr2, fd2) =>
      if data = [] then some (acc, none, fr2, fd2)
      else readHeaderAll f plen fr2 fd2 (acc ++ data)

/-- A consumer that reads the Body section to exhaustion, in the same way
as `readHeaderAll`. -/
def readBodyAll (fuel plen : Nat) (fr : Frame) (fd : Framed) (acc : List Nat) :
    Option (List Nat × Option GoErr × Frame × Framed) :=
  match fuel with
  | 0 => none
  | f + 1 =>
    match fr.ReadBody fd plen with
    | none => none
    | some (data, some GoErr.eof, fr2, fd2) => some (acc ++ data, none, fr2, fd2)
    | some (data, some e, fr2, fd2) => some (acc ++ data, some e, fr2, fd2)
    | some (data, none, fr2, fd2) =>
      if data = [] then some (acc, none, fr2, fd2)
      else readBodyAll f plen fr2 fd2 (acc ++ data)

/-- The write/read round trip of one frame: `WriteFrame(header, body)` on
one session, then on a peer session holding exactly the written bytes,
`ReadInitial` followed by reading the Header section and then the Body
section to exhaustion.  Yields the header and body bytes delivered, or
`none` if any step fails or panics. -/
def roundTrip (header body : List Nat) : Option (List Nat × List Nat) :=
  match Framed.WriteFrame header body with
  | (some _, _) => none
  | (none, wire) =>
    match Framed.ReadInitial ⟨⟨wire, GoErr.eof⟩, false⟩ with
    | (none, some fr, fd) =>
      match readHeaderAll (header.length + 2) 65536 fr fd [] with
      | some (h, none, fr1, fd1) =>
        match readBodyAll (body.length + 2) 65536 fr1 fd1 [] with
        | some (b, none, _, _) => some (h, b)
        | _ => none
      | _ => none
    | _ => none

/-- `MaxFrameLength` of the single-section framing variant. -/
def MaxFrameLength : Nat := 65535

/-- `binary.Write(stream, littleEndian, uint16(n))`: the two bytes of
`n mod 2^16`, least significant first. -/
def encodeUint16 (n : Nat) : List Nat := [n % 65536 % 256, n % 65536 / 256]

/-- `Reader.Read` of the single-section variant: reads the `uint16`
length prefix, rejects a destination buffer smaller than the declared
length (with the prefix already consumed), otherwise reads the payload
with `io.ReadFull`.  Returns the byte count, the error, and the
remaining stream. -/
def Reader.Read (stream : List Nat) (bufferSize : Nat) : Nat × Option GoErr × List Nat :=
  match stream with
  | [] => (0, some GoErr.eof, [])
  | [_] => (0, some GoErr.unexpectedEOF, [])
  | b0 :: b1 :: rest =>
    let nb := b0 % 256 + 256 * (b1 % 256)
    if bufferSize < nb then (0, some GoErr.bufferTooSmall, rest)
    else if nb ≤ rest.length then (nb, none, rest.drop nb)
    else (rest.length,
          some (if rest.length = 0 then GoErr.eof else GoErr.unexpectedEOF), [])

/-- `Writer.WritePieces` of the single-section variant: sums the chunk
lengths, rejects a sum above `MaxFrameLength` before writing anything,
otherwise writes the single `uint16` prefix followed by each chunk in
order.  The underlying writer is modelled as an always-succeeding sink;
the list is the bytes handed to it. -/
def Writer.WritePieces (pieces : List (List Nat)) : Nat × Option GoErr × List Nat :=
  let n := (pieces.map List.length).sum
  if MaxFrameLength < n then (0, some GoErr.tooLong, [])
  else (n, none, encodeUint16 n ++ pieces.flatten)

/-- Evaluation of `readStep` on a section with bytes still to deliver:
an exhausted stream delivers nothing and reports its terminal error;
otherwise the stream delivers up to `want` bytes and the counter drops by
the delivered amount, with `io.EOF` signalled exactly at zero. -/
theorem readStep_run (sec : FrameSection) (fd : Framed) (want : Nat) (hw : 0 < want)
    (hr : sec.bytesRemaining ≠ 0) :
    readStep sec fd want =
      if fd.stream.bytes = [] then ([], some fd.stream.termErr, sec, fd)
      else
        (fd.stream.bytes.take want,
         (if sec.bytesRemaining - ((min want fd.stream.bytes.length : Nat) : Int) = 0
          then some GoErr.eof else none),
         ⟨sec.bytesRemaining - ((min want fd.stream.bytes.length : Nat) : Int),
          sec.startedReading⟩,
         ⟨⟨fd.stream.bytes.drop want, fd.stream.termErr⟩, fd.hasReadInitial⟩) := by
  obtain ⟨⟨bytes, te⟩, hri⟩ := fd
  by_cases hb : bytes = []
  · subst hb
    have hsr : Stream.read ⟨[], te⟩ want = ([], ⟨[], te⟩, some te) := by
      simp only [Stream.read]
      rw [if_neg (by omega : ¬ want = 0)]
      simp
    simp only [readStep, hsr]
    simp [hr]
  · have hsr : Stream.read ⟨bytes, te⟩ want =
        (bytes.take want, ⟨bytes.drop want, te⟩, none) := by
      simp only [Stream.read]
      rw [if_neg (by omega : ¬ want = 0), if_neg (by simpa using hb)]
    simp only [readStep, hsr]
    have hpos : 0 < min want bytes.length := by
      have : 0 < bytes.length := List.length_pos.mpr hb
      omega
    simp [hb, List.length_take, hpos]

/-- Evaluation of `FrameSection.Read` on a section with a positive
remaining count: the buffer is clamped to the remaining count and the
read is delegated to `readStep`. -/
theorem sectionRead_pos (sec : FrameSection) (fd : Framed) (r plen : Nat)
    (hsec : sec.bytesRemaining = (r : Int)) (hr : 0 < r) :
    sec.Read fd plen = some (readStep ⟨(r : Int), true⟩ fd (min plen r)) := by
  simp only [FrameSection.Read, hsec]
  rw [if_neg (by omega : ¬ (r : Int) = 0)]
  by_cases hc : (r : Int) < (plen : Int)
  · rw [if_pos hc, if_neg (by omega : ¬ (r : Int) < 0)]
    have : (r : Int).toNat = r := Int.toNat_natCast r
    rw [this]
    have : min plen r = r := by
      have : r < plen := by exact_mod_cast hc
      omega
    rw [this]
  · rw [if_neg hc]
    have : min plen r = plen := by
      have : ¬ r < plen := by
        intro hcon
        exact hc (by exact_mod_cast hcon)
      omega
    rw [this]

/-- Claim C7: `ReadInitial` succeeds at most once per session.  On a
session whose `hasReadInitial` flag is set it fails with the already-read
error, leaving the session state (and hence the stream, and any
previously obtained frame, which it never touches) unchanged; on a fresh
session it returns exactly the frame and error of `nextFrame` and sets
the flag. -/
theorem readInitial_at_most_once (st : Stream) :
    Framed.ReadInitial ⟨st, true⟩ = (some GoErr.alreadyRead, none, ⟨st, true⟩) ∧
    (Framed.ReadInitial ⟨st, false⟩).2.2.hasReadInitial = true ∧
    Framed.ReadInitial ⟨st, false⟩ =
      ((Framed.nextFrame ⟨st, false⟩).1, some (Framed.nextFrame ⟨st, false⟩).2.1,
       ⟨(Framed.nextFrame ⟨st, false⟩).2.2.stream, true⟩) := by
  refine ⟨rfl, rfl, rfl⟩

/-- Claim C9: even when the first `ReadInitial` fails with a transport
error, the session is marked as having read the initial frame, so every
later `ReadInitial` on it fails with the already-read error and leaves
the session untouched. -/
theorem readInitial_error_still_marks_read (st : Stream) (e : GoErr)
    (h : (Framed.nextFrame ⟨st, false⟩).1 = some e) :
    (Framed.ReadInitial ⟨st, false⟩).1 = some e ∧
    (Framed.ReadInitial ⟨st, false⟩).2.2.hasReadInitial = true ∧
    Framed.ReadInitial (Framed.ReadInitial ⟨st, false⟩).2.2 =
      (some GoErr.alreadyRead, none, (Framed.ReadInitial ⟨st, false⟩).2.2) := by
  exact ⟨h, rfl, rfl⟩

/-- Witness for claim C9 at the concrete empty stream, whose first
length read fails with EOF. -/
theorem readInitial_error_still_marks_read_witness :
    (Framed.ReadInitial ⟨⟨[], GoErr.eof⟩, false⟩).1 = some GoErr.eof ∧
    (Framed.ReadInitial ⟨⟨[], GoErr.eof⟩, false⟩).2.2.hasReadInitial = true ∧
    Framed.ReadInitial (Framed.ReadInitial ⟨⟨[], GoErr.eof⟩, false⟩).2.2 =
      (some GoErr.alreadyRead, none, (Framed.ReadInitial ⟨⟨[], GoErr.eof⟩, false⟩).2.2) :=
  readInitial_error_still_marks_read ⟨[], GoErr.eof⟩ GoErr.eof (by decide)

/-- Claim C10: in the single-section variant, a `Reader.Read` whose
destination buffer is smaller than the declared frame length returns 0
bytes and an error, with the two-byte length prefix already consumed and
the payload left unread on the stream. -/
theorem reader_read_buffer_too_small (b0 b1 bufferSize : Nat) (payload : List Nat)
    (h : bufferSize < b0 % 256 + 256 * (b1 % 256)) :
    Reader.Read (b0 :: b1 :: payload) bufferSize = (0, some GoErr.bufferTooSmall, payload) := by
  simp only [Reader.Read]
  rw [if_pos h]

/-- Witness for claim C10: a frame of declared length 5 read into a
buffer of size 3. -/
theorem reader_read_buffer_too_small_witness :
    Reader.Read [5, 0, 1, 2, 3, 4, 5] 3 = (0, some GoErr.bufferTooSmall, [1, 2, 3, 4, 5]) :=
  reader_read_buffer_too_small 5 0 3 [1, 2, 3, 4, 5] (by decide)

/-- Claim C8: `WritePieces` writes one length prefix equal to the sum of
the chunk lengths followed by the chunks concatenated in order, and a sum
above 65535 is rejected with an error before anything is written. -/
theorem writePieces_spec (pieces : List (List Nat)) :
    Writer.WritePieces pieces =
      if (pieces.map List.length).sum ≤ 65535 then
        ((pieces.map List.length).sum, none,
         encodeUint16 ((pieces.map List.length).sum) ++ pieces.flatten)
      else (0, some GoErr.tooLong, []) := by
  simp only [Writer.WritePieces, MaxFrameLength]
  by_cases h : (pieces.map List.length).sum ≤ 65535
  · rw [if_neg (by omega), if_pos h]
  · rw [if_pos (by omega), if_neg h]

/-- Claim C4, corrected: reading a section whose `bytesRemaining` is 0
(including a zero-length section on its first read) returns 0 bytes with
a nil error — not the end-of-section signal — performs no I/O, and
leaves the frame and session unchanged, so every subsequent read behaves
identically. -/
theorem read_exhausted_returns_zero_nil (fr : Frame) (fd : Framed) (plen : Nat) :
    (fr.Header.bytesRemaining = 0 → fr.ReadHeader fd plen = some ([], none, fr, fd)) ∧
    (fr.Body.bytesRemaining = 0 → fr.ReadBody fd plen = some ([], none, fr, fd)) := by
  constructor
  · intro h
    simp [Frame.ReadHeader, FrameSection.Read, h]
  · intro h
    simp [Frame.ReadBody, h]

/-- Witness for claim C4's corrected statement on a frame with two
zero-length sections and a non-empty stream. -/
theorem read_exhausted_returns_zero_nil_witness :
    Frame.ReadHeader ⟨⟨0, false⟩, ⟨0, false⟩, 0, 0⟩ ⟨⟨[7], GoErr.eof⟩, false⟩ 1 =
      some ([], none, ⟨⟨0, false⟩, ⟨0, false⟩, 0, 0⟩, ⟨⟨[7], GoErr.eof⟩, false⟩) ∧
    Frame.ReadBody ⟨⟨0, false⟩, ⟨0, false⟩, 0, 0⟩ ⟨⟨[7], GoErr.eof⟩, false⟩ 1 =
      some ([], none, ⟨⟨0, false⟩, ⟨0, false⟩, 0, 0⟩, ⟨⟨[7], GoErr.eof⟩, false⟩) :=
  ⟨(read_exhausted_returns_zero_nil _ _ 1).1 rfl, (read_exhausted_returns_zero_nil _ _ 1).2 rfl⟩

/-- Counterexample to claim C4 as stated: the very first read of a
zero-length Header section returns a nil error, not the end-of-section
signal `io.EOF` that the claim requires. -/
theorem read_exhausted_no_eof_signal :
    Frame.ReadHeader ⟨⟨0, false⟩, ⟨5, false⟩, 0, 5⟩ ⟨⟨[1, 2, 3, 4, 5], GoErr.eof⟩, false⟩ 1 =
      some ([], none, ⟨⟨0, false⟩, ⟨5, false⟩, 0, 5⟩, ⟨⟨[1, 2, 3, 4, 5], GoErr.eof⟩, false⟩) ∧
    (none : Option GoErr) ≠ some GoErr.eof := by
  exact ⟨by decide, by decide⟩

/-- Claim C3: a declared header-length prefix of 32768 (bytes `0x00
0x80`) is decoded through `int16` into a negative `bytesRemaining` of
-32768, violating the claimed invariant that the counter stays in
[0, L] for every declared length in [0, 65535]. -/
theorem readLengths_negative_bytesRemaining :
    Framed.nextFrame ⟨⟨[0, 128, 0, 0], GoErr.eof⟩, false⟩ =
      (none, ⟨⟨-32768, false⟩, ⟨0, false⟩, -32768, 0⟩, ⟨⟨[], GoErr.eof⟩, false⟩) ∧
    (-32768 : Int) < 0 := by
  exact ⟨by decide, by decide⟩

/-- Claim C2: `WriteFrame` performs no length validation.  A header of
65536 bytes is written without error: the length prefix wraps to 0 and
all 65536 payload bytes are handed to the underlying stream, where the
claim requires an error with nothing written. -/
theorem writeFrame_accepts_oversized_header :
    Framed.WriteFrame (List.replicate 65536 3) [] =
      (none, [0, 0, 0, 0] ++ List.replicate 65536 3) := by
  have h2 : encodeInt16 (toInt16 65536) = [0, 0] := by decide
  have h4 : encodeInt16 (toInt16 0) = [0, 0] := by decide
  simp only [Framed.WriteFrame, writeHeaderTo, List.length_replicate, List.length_nil, h2, h4,
    List.append_nil, List.cons_append, List.nil_append]

theorem copyLoopS_run (fuel : Nat) : ∀ (r : Nat) (sec : FrameSection) (fd : Framed),
    sec.bytesRemaining = (r : Int) → 0 < r → r ≤ fuel →
    copyLoopS fuel sec fd =
      if r ≤ fd.stream.bytes.length then
        some (none, ⟨0, true⟩,
          ⟨⟨fd.stream.bytes.drop r, fd.stream.termErr⟩, fd.hasReadInitial⟩)
      else
        some ((if fd.stream.termErr = GoErr.eof then none else some fd.stream.termErr),
          ⟨(r : Int) - (fd.stream.bytes.length : Int), true⟩,
          ⟨⟨[], fd.stream.termErr⟩, fd.hasReadInitial⟩) := by
  induction fuel with
  | zero => intro r sec fd _ hr hf; omega
  | succ f ih =>
    intro r sec fd hsec hr hf
    obtain ⟨⟨bytes, te⟩, hri⟩ := fd
    have hw : 0 < min 32768 r := by omega
    have hne : (⟨(r : Int), true⟩ : FrameSection).bytesRemaining ≠ 0 := by
      simp only []
      omega
    rw [copyLoopS, sectionRead_pos sec _ r 32768 hsec hr, readStep_run _ _ _ hw hne]
    by_cases hb : bytes = []
    · subst hb
      simp only [List.length_nil, List.drop_nil, if_true]
      rw [if_neg (by omega : ¬ r ≤ 0)]
      cases te <;> simp
    · rw [if_neg hb]
      set L := bytes.length with hL
      set want := min 32768 r with hwant
      set n := min want L with hn
      have hL0 : 0 < L := by
        rw [hL]
        exact List.length_pos.mpr hb
      by_cases hterm : (r : Int) - (n : Int) = 0
      · have hwr : want = r := by omega
        have hrL : r ≤ L := by omega
        rw [if_pos hterm]
        show some (none, (⟨(r : Int) - (n : Int), true⟩ : FrameSection),
          (⟨⟨bytes.drop want, te⟩, hri⟩ : Framed)) = _
        rw [hterm, hwr, if_pos hrL]
      · rw [if_neg hterm]
        have hcast : (r : Int) - (n : Int) = ((r - n : Nat) : Int) := by omega
        rw [hcast]
        show copyLoopS f ⟨((r - n : Nat) : Int), true⟩ ⟨⟨bytes.drop want, te⟩, hri⟩ = _
        rw [ih (r - n) ⟨((r - n : Nat) : Int), true⟩ ⟨⟨bytes.drop want, te⟩, hri⟩ rfl
          (by omega) (by omega)]
        have hdl : (bytes.drop want).length = L - want := by
          rw [List.length_drop, hL]
        dsimp only
        rw [hdl]
        by_cases hrL : r ≤ L
        · rw [if_pos hrL, if_pos (by omega : r - n ≤ L - want)]
          have hcomp : want + (r - n) = r := by omega
          rw [List.drop_drop, hcomp]
        · rw [if_neg hrL, if_neg (by omega : ¬ r - n ≤ L - want)]
          have heq : ((r - n : Nat) : Int) - ((L - want : Nat) : Int) = (r : Int) - (L : Int) := by
            omega
          rw [heq]

/-- Evaluation of `FrameSection.drain` on a section with no positive
remaining count: a no-op. -/
theorem drain_zero (sec : FrameSection) (fd : Framed) (h : ¬ 0 < sec.bytesRemaining) :
    sec.drain fd = some (none, sec, fd) := by
  simp [FrameSection.drain, h]

/-- Evaluation of `FrameSection.drain` on a section with a positive
remaining count: it consumes `min r available` bytes from the stream; if
the stream has enough bytes the section ends exhausted with no error,
otherwise the stream is emptied, the count keeps the shortfall, and the
drain fails exactly when the terminal error is not a clean EOF. -/
theorem drain_run (sec : FrameSection) (fd : Framed) (r : Nat)
    (hsec : sec.bytesRemaining = (r : Int)) (hr : 0 < r) :
    sec.drain fd =
      if r ≤ fd.stream.bytes.length then
        some (none, ⟨0, true⟩,
          ⟨⟨fd.stream.bytes.drop r, fd.stream.termErr⟩, fd.hasReadInitial⟩)
      else
        some ((if fd.stream.termErr = GoErr.eof then none else some fd.stream.termErr),
          ⟨(r : Int) - (fd.stream.bytes.length : Int), true⟩,
          ⟨⟨[], fd.stream.termErr⟩, fd.hasReadInitial⟩) := by
  simp only [FrameSection.drain, hsec]
  rw [if_pos (by exact_mod_cast hr : (0 : Int) < (r : Nat)), Int.toNat_natCast]
  exact copyLoopS_run (r + 1) r sec fd hsec hr (by omega)

/-- Draining an already-exhausted Header section is a no-op on the
frame and session. -/
theorem drainHeader_zero (fr : Frame) (fd : Framed) (h : ¬ 0 < fr.Header.bytesRemaining) :
    fr.drainHeader fd = some (none, fr, fd) := by
  simp [Frame.drainHeader, drain_zero _ _ h]

/-- Evaluation of `Frame.drainHeader` with a positive Header count,
by `drain_run`. -/
theorem drainHeader_run (fr : Frame) (fd : Framed) (r : Nat)
    (hsec : fr.Header.bytesRemaining = (r : Int)) (hr : 0 < r) :
    fr.drainHeader fd =
      if r ≤ fd.stream.bytes.length then
        some (none, ⟨⟨0, true⟩, fr.Body, fr.headerLength, fr.bodyLength⟩,
          ⟨⟨fd.stream.bytes.drop r, fd.stream.termErr⟩, fd.hasReadInitial⟩)
      else
        some ((if fd.stream.termErr = GoErr.eof then none else some fd.stream.termErr),
          ⟨⟨(r : Int) - (fd.stream.bytes.length : Int), true⟩, fr.Body,
           fr.headerLength, fr.bodyLength⟩,
          ⟨⟨[], fd.stream.termErr⟩, fd.hasReadInitial⟩) := by
  simp only [Frame.drainHeader, drain_run fr.Header fd r hsec hr]
  by_cases h : r ≤ fd.stream.bytes.length
  · rw [if_pos h, if_pos h]
  · rw [if_neg h, if_neg h]

/-- When the Header section is already exhausted, reading the Body
section is reading its plain section state: the `init` drain is a
no-op. -/
theorem readBody_header_done (fr : Frame) (fd : Framed) (plen : Nat)
    (hH : ¬ 0 < fr.Header.bytesRemaining) :
    fr.ReadBody fd plen =
      Option.map (fun x => (x.1, x.2.1, (⟨fr.Header, x.2.2.1, fr.headerLength, fr.bodyLength⟩ : Frame), x.2.2.2))
        (fr.Body.Read fd plen) := by
  by_cases hb : fr.Body.bytesRemaining = 0
  · simp [Frame.ReadBody, FrameSection.Read, hb]
  · simp only [Frame.ReadBody, hb, if_neg hb, drainHeader_zero fr fd hH]
    cases hread : fr.Body.Read fd plen with
    | none => rfl
    | some val => rfl

/-- With an exhausted Header section, the Body `io.Copy` loop is the
plain section loop lifted to the frame. -/
theorem copyLoopB_header_done (fuel : Nat) : ∀ (fr : Frame) (fd : Framed),
    fr.Header.bytesRemaining = 0 →
    copyLoopB fuel fr fd =
      Option.map (fun x => (x.1, (⟨fr.Header, x.2.1, fr.headerLength, fr.bodyLength⟩ : Frame), x.2.2))
        (copyLoopS fuel fr.Body fd) := by
  induction fuel with
  | zero => intro fr fd _; rfl
  | succ f ih =>
    intro fr fd hH
    rw [copyLoopB, copyLoopS, readBody_header_done fr fd 32768 (by omega)]
    cases hread : fr.Body.Read fd 32768 with
    | none => rfl
    | some val =>
      obtain ⟨data, e, sec2, fd2⟩ := val
      cases e with
      | none =>
        simp only [Option.map_some]
        exact ih ⟨fr.Header, sec2, fr.headerLength, fr.bodyLength⟩ fd2 hH
      | some e2 =>
        cases e2 <;> rfl

/-- Draining an already-exhausted Body section is a no-op. -/
theorem drainBody_zero (fr : Frame) (fd : Framed) (h : ¬ 0 < fr.Body.bytesRemaining) :
    fr.drainBody fd = some (none, fr, fd) := by
  simp [Frame.drainBody, h]

/-- Evaluation of `Frame.drainBody` when the Header section is already
exhausted, by the section loop evaluation. -/
theorem drainBody_run (fr : Frame) (fd : Framed) (b : Nat)
    (hH : fr.Header.bytesRemaining = 0)
    (hB : fr.Body.bytesRemaining = (b : Int)) (hb : 0 < b) :
    fr.drainBody fd =
      if b ≤ fd.stream.bytes.length then
        some (none, ⟨fr.Header, ⟨0, true⟩, fr.headerLength, fr.bodyLength⟩,
          ⟨⟨fd.stream.bytes.drop b, fd.stream.termErr⟩, fd.hasReadInitial⟩)
      else
        some ((if fd.stream.termErr = GoErr.eof then none else some fd.stream.termErr),
          ⟨fr.Header, ⟨(b : Int) - (fd.stream.bytes.length : Int), true⟩,
           fr.headerLength, fr.bodyLength⟩,
          ⟨⟨[], fd.stream.termErr⟩, fd.hasReadInitial⟩) := by
  simp only [Frame.drainBody, hB]
  rw [if_pos (by exact_mod_cast hb : (0 : Int) < (b : Nat)), Int.toNat_natCast]
  rw [copyLoopB_header_done (b + 1) fr fd hH]
  rw [copyLoopS_run (b + 1) b fr.Body fd hB hb (by omega)]
  by_cases h : b ≤ fd.stream.bytes.length
  · rw [if_pos h, if_pos h]
    rfl
  · rw [if_neg h, if_neg h]
    rfl

/-- Draining the Body section over an exhausted stream that ended
cleanly, while the Header section still has bytes pending: the Header
drain inside the Body read swallows the clean EOF, the Body read itself
then reports EOF, and the drain succeeds without consuming anything. -/
theorem drainBody_pending_header (fr : Frame) (hri : Bool) (b hrem : Nat)
    (hH : fr.Header.bytesRemaining = (hrem : Int)) (hh : 0 < hrem)
    (hB : fr.Body.bytesRemaining = (b : Int)) (hb : 0 < b) :
    fr.drainBody ⟨⟨[], GoErr.eof⟩, hri⟩ =
      some (none, ⟨⟨(hrem : Int), true⟩, ⟨(b : Int), true⟩, fr.headerLength, fr.bodyLength⟩,
        ⟨⟨[], GoErr.eof⟩, hri⟩) := by
  simp only [Frame.drainBody, hB]
  rw [if_pos (by exact_mod_cast hb : (0 : Int) < (b : Nat)), Int.toNat_natCast]
  rw [copyLoopB]
  have hdh : fr.drainHeader ⟨⟨[], GoErr.eof⟩, hri⟩ =
      some (none, ⟨⟨(hrem : Int), true⟩, fr.Body, fr.headerLength, fr.bodyLength⟩,
        ⟨⟨[], GoErr.eof⟩, hri⟩) := by
    rw [drainHeader_run fr _ hrem hH hh]
    rw [if_neg (by simp; omega)]
    simp
  have hbr : fr.Body.Read ⟨⟨[], GoErr.eof⟩, hri⟩ 32768 =
      some ([], some GoErr.eof, ⟨(b : Int), true⟩, ⟨⟨[], GoErr.eof⟩, hri⟩) := by
    rw [sectionRead_pos _ _ b 32768 hB hb]
    rw [readStep_run _ _ _ (by omega) (by simp; omega)]
    rw [if_pos rfl]
  simp only [Frame.ReadBody, hB]
  rw [if_neg (by omega : ¬ ((b : Nat) : Int) = 0), hdh]
  dsimp only
  rw [hbr]

/-- Claim C6: advancing to the next frame drains the Header section,
then the Body section, then reads the next length-prefix pair.  When the
stream cannot satisfy the sections' declared remaining lengths — it ends,
cleanly or with a transport error, before `h + b` further bytes arrive —
the advance consumes the rest of the stream, produces no next frame, and
surfaces exactly the stream's terminal error instead of discarding it
(on a clean EOF the error is the EOF reported by the following
length-prefix read, whose incompletely initialised frame the code also
returns). -/
theorem nextFrame_surfaces_drain_failure (fr : Frame) (fd : Framed) (h b : Nat)
    (hh : fr.Header.bytesRemaining = (h : Int)) (hb : fr.Body.bytesRemaining = (b : Int))
    (hshort : fd.stream.bytes.length < h + b) :
    fr.NextFrame fd =
      some (some fd.stream.termErr,
        (if fd.stream.termErr = GoErr.eof then some ⟨⟨0, false⟩, ⟨0, false⟩, 0, 0⟩ else none),
        ⟨⟨[], fd.stream.termErr⟩, fd.hasReadInitial⟩) := by
  obtain ⟨⟨bytes, te⟩, hri⟩ := fd
  simp only at hshort
  have hnf : Framed.nextFrame ⟨⟨[], te⟩, hri⟩ =
      (some te, ⟨⟨0, false⟩, ⟨0, false⟩, 0, 0⟩, ⟨⟨[], te⟩, hri⟩) := by
    simp [Framed.nextFrame, Stream.readInt16]
  simp only [Frame.NextFrame]
  rcases Nat.eq_zero_or_pos h with h0 | hpos
  · subst h0
    have hH0 : fr.Header.bytesRemaining = 0 := by simpa using hh
    have hb0 : 0 < b := by omega
    rw [drainHeader_zero fr _ (by omega)]
    dsimp only
    rw [drainBody_run fr _ b hH0 hb hb0, if_neg (by simpa using (by omega : ¬ b ≤ bytes.length))]
    by_cases hte : te = GoErr.eof
    · subst hte
      rw [if_pos rfl]
      dsimp only
      rw [hnf]
      simp
    · rw [if_neg hte]
      dsimp only
      rw [if_neg hte]
  · by_cases hsh : bytes.length < h
    · rw [drainHeader_run fr _ h hh hpos, if_neg (by simpa using (by omega : ¬ h ≤ bytes.length))]
      by_cases hte : te = GoErr.eof
      · subst hte
        rw [if_pos rfl]
        dsimp only
        rcases Nat.eq_zero_or_pos b with b0 | bpos
        · subst b0
          rw [drainBody_zero _ _ (by simp [hb])]
          dsimp only
          rw [hnf]
          simp
        · rw [drainBody_pending_header
            ⟨⟨(h : Int) - (bytes.length : Int), true⟩, fr.Body, fr.headerLength, fr.bodyLength⟩
            hri b (h - bytes.length) (by dsimp only; omega) (by omega) hb bpos]
          dsimp only
          rw [hnf]
          simp
      · rw [if_neg hte]
        dsimp only
        rw [if_neg hte]
    · rw [drainHeader_run fr _ h hh hpos, if_pos (by simpa using (by omega : h ≤ bytes.length))]
      dsimp only
      have hb0 : 0 < b := by omega
      rw [drainBody_run ⟨⟨0, true⟩, fr.Body, fr.headerLength, fr.bodyLength⟩
            ⟨⟨bytes.drop h, te⟩, hri⟩ b rfl hb hb0,
          if_neg (by dsimp only; simp only [List.length_drop]; omega)]
      dsimp only
      by_cases hte : te = GoErr.eof
      · subst hte
        rw [if_pos rfl]
        dsimp only
        rw [hnf]
        simp
      · rw [if_neg hte]
        dsimp only
        rw [if_neg hte]

/-- Witness for claim C6: a frame with five undelivered header bytes
over a stream holding only three bytes before a connection-reset
terminal error; the advance surfaces the reset. -/
theorem nextFrame_surfaces_drain_failure_witness :
    Frame.NextFrame ⟨⟨5, false⟩, ⟨0, false⟩, 5, 0⟩ ⟨⟨[9, 9, 9], GoErr.connReset⟩, true⟩ =
      some (some GoErr.connReset, none, ⟨⟨[], GoErr.connReset⟩, true⟩) := by
  have hres := nextFrame_surfaces_drain_failure ⟨⟨5, false⟩, ⟨0, false⟩, 5, 0⟩
    ⟨⟨[9, 9, 9], GoErr.connReset⟩, true⟩ 5 0 (by norm_num) (by norm_num) (by norm_num)
  simpa using hres

/-- Any 32768-byte header panics the reader on the round trip: the
writer emits the prefix bytes `0x00 0x80`, the reader decodes them
through `int16` as -32768, and the first Header read slices its buffer
with the negative bound. -/
theorem roundTrip_panic_aux (l : List Nat) (hl : l.length = 32768) :
    roundTrip l [] = none := by
  have henc1 : encodeInt16 (toInt16 32768) = [0, 128] := by
    rw [show toInt16 32768 = -32768 by decide]
    simp only [encodeInt16]
    rw [show ((-32768 : Int) % 65536) = 32768 by omega]
    decide
  have henc2 : encodeInt16 (toInt16 0) = [0, 0] := by decide
  have hwire : Framed.WriteFrame l [] = (none, 0 :: 128 :: 0 :: 0 :: l) := by
    simp only [Framed.WriteFrame, writeHeaderTo, hl, List.length_nil,
      henc1, henc2, List.append_nil, List.cons_append, List.nil_append]
  have hr1 : Stream.readInt16 ⟨0 :: 128 :: 0 :: 0 :: l, GoErr.eof⟩ =
      (Except.ok (-32768), ⟨0 :: 0 :: l, GoErr.eof⟩) := by
    simp only [Stream.readInt16]
    rw [show (0 : Nat) % 256 + 256 * (128 % 256) = 32768 by norm_num,
        show toInt16 32768 = -32768 by decide]
  have hr2 : Stream.readInt16 ⟨0 :: 0 :: l, GoErr.eof⟩ =
      (Except.ok 0, ⟨l, GoErr.eof⟩) := by
    simp only [Stream.readInt16]
    rw [show (0 : Nat) % 256 + 256 * (0 % 256) = 0 by norm_num,
        show toInt16 0 = 0 by decide]
  have hri : Framed.ReadInitial ⟨⟨0 :: 128 :: 0 :: 0 :: l, GoErr.eof⟩, false⟩ =
      (none, some ⟨⟨-32768, false⟩, ⟨0, false⟩, -32768, 0⟩, ⟨⟨l, GoErr.eof⟩, true⟩) := by
    simp only [Framed.ReadInitial, Framed.nextFrame, hr1, hr2, Bool.false_eq_true, if_false]
  have hpanic : Frame.ReadHeader ⟨⟨-32768, false⟩, ⟨0, false⟩, -32768, 0⟩
      ⟨⟨l, GoErr.eof⟩, true⟩ 65536 = none := by
    simp only [Frame.ReadHeader, FrameSection.Read]
    rw [if_neg (by norm_num : ¬ (-32768 : Int) = 0),
        if_pos (by norm_num : (-32768 : Int) < ((65536 : Nat) : Int)),
        if_pos (by norm_num : (-32768 : Int) < 0)]
  simp only [roundTrip, hwire, hri]
  rw [show l.length + 2 = (l.length + 1) + 1 from rfl]
  simp only [readHeaderAll, hpanic]

/-- Claim C1: the write/read round trip fails for a header of length
32768 and an empty body.  The writer emits the wire bytes with prefix
`0x00 0x80`, the reader decodes that prefix through `int16` as -32768,
and the first Header read slices its buffer with the negative bound,
which panics — so reading back yields nothing instead of the written
header and body. -/
theorem roundTrip_panics_for_length_32768 :
    roundTrip (List.replicate 32768 0) [] = none :=
  roundTrip_panic_aux (List.replicate 32768 0) (List.length_replicate 32768 0)

/-- Claim C5: on an untouched frame with header length 20000 and body
length 20000 (read from the wire prefix `[32, 78, 32, 78]`), whole-frame
copy does not copy the 40000 payload bytes: the copy count
`int16(headerLength + bodyLength)` wraps to -25536, `io.CopyN` copies
nothing and reports no error, so only the four prefix bytes reach the
destination and the stream is left untouched. -/
theorem copyTo_int16_sum_copies_nothing :
    Framed.ReadInitial ⟨⟨[32, 78, 32, 78] ++ List.replicate 40000 7, GoErr.eof⟩, false⟩ =
      (none, some ⟨⟨20000, false⟩, ⟨20000, false⟩, 20000, 20000⟩,
       ⟨⟨List.replicate 40000 7, GoErr.eof⟩, true⟩) ∧
    Frame.CopyTo ⟨⟨20000, false⟩, ⟨20000, false⟩, 20000, 20000⟩
        ⟨⟨List.replicate 40000 7, GoErr.eof⟩, true⟩ =
      (none, [32, 78, 32, 78], ⟨⟨List.replicate 40000 7, GoErr.eof⟩, true⟩) := by
  constructor
  · have hr1 : Stream.readInt16 ⟨32 :: 78 :: 32 :: 78 :: List.replicate 40000 7, GoErr.eof⟩ =
        (Except.ok 20000, ⟨32 :: 78 :: List.replicate 40000 7, GoErr.eof⟩) := by
      simp only [Stream.readInt16]
      rw [show (32 : Nat) % 256 + 256 * (78 % 256) = 20000 by norm_num,
          show toInt16 20000 = 20000 by decide]
    have hr2 : Stream.readInt16 ⟨32 :: 78 :: List.replicate 40000 7, GoErr.eof⟩ =
        (Except.ok 20000, ⟨List.replicate 40000 7, GoErr.eof⟩) := by
      simp only [Stream.readInt16]
      rw [show (32 : Nat) % 256 + 256 * (78 % 256) = 20000 by norm_num,
          show toInt16 20000 = 20000 by decide]
    simp only [List.cons_append, List.nil_append, Framed.ReadInitial, Framed.nextFrame,
      hr1, hr2, Bool.false_eq_true, if_false]
  · simp only [Frame.CopyTo, Bool.or_self, Bool.false_eq_true, if_false]
    rw [show int16ofInt ((20000 : Int) + 20000) = -25536 by decide,
        if_pos (by norm_num : (-25536 : Int) ≤ 0),
        show writeHeaderTo 20000 20000 = [32, 78, 32, 78] by decide]

end framed
